import Mathlib

/-!
Verification development for the meshcore-to-maps gateway
(`mctomqtt.py`, `auth_token.py`).

The Python source is shallowly embedded: each relevant piece of mutable
state becomes an explicit Lean value threaded through pure step
functions, regexes become hand-written deterministic matchers over
`List Char` (the `PACKET_PATTERN` regex is deterministic at every
choice point, so no general backtracking engine is needed), Python
`str.split`/`strip`/`lower`/`upper` become list operations, Python
floats (`reconnect_delay`, `time.time()`) become rationals (all
reachable backoff values `min(1.5^k, 120)` and the comparisons made on
them are exact in binary floating point, so `ℚ` is a faithful model),
and fallible operations return `Option`/`Except`.  `\d` in the regexes
is modelled as an ASCII digit and `str.strip` as stripping ASCII
whitespace.
-/

set_option maxRecDepth 8000

/-! ## Basic string helpers (Python `split` / `strip` / `lower` / `upper`) -/

/-- Boolean test that `pat` is an initial segment of `s`
(Python `str.startswith`, also the building block of `str.split`). -/
def startsWithList : List Char → List Char → Bool
  | [], _ => true
  | _ :: _, [] => false
  | p :: ps, c :: cs => p == c && startsWithList ps cs

/-- First occurrence of the (nonempty) separator `sep` in `s`:
returns the part before it and the part after it, or `none` when `sep`
does not occur.  `Python s.split(sep)` has length `> 1` exactly when
this returns `some`, and its element `[1]` is the part after the first
occurrence up to the next occurrence (or the end). -/
def splitFirst (sep : List Char) : List Char → Option (List Char × List Char)
  | [] => none
  | c :: rest =>
    if startsWithList sep (c :: rest) then some ([], (c :: rest).drop sep.length)
    else match splitFirst sep rest with
      | some (pre, post) => some (c :: pre, post)
      | none => none

/-- ASCII whitespace, the characters Python `str.strip()` removes from
ASCII text. -/
def isPySpace (c : Char) : Bool :=
  c == ' ' || c == '\t' || c == '\n' || c == '\r' || c == '\x0b' || c == '\x0c'

/-- Python `str.strip()` on ASCII text. -/
def trimList (s : List Char) : List Char :=
  ((s.dropWhile isPySpace).reverse.dropWhile isPySpace).reverse

/-- Python `str.lower()` on an ASCII character. -/
def pyLowerChar (c : Char) : Char :=
  if 'A' ≤ c ∧ c ≤ 'Z' then Char.ofNat (c.toNat + 32) else c

/-- Python `str.upper()` on an ASCII character. -/
def pyUpperChar (c : Char) : Char :=
  if 'a' ≤ c ∧ c ≤ 'z' then Char.ofNat (c.toNat - 32) else c

/-- Python `str.lower()`. -/
def pyLowerStr (s : String) : String := (s.data.map pyLowerChar).asString

/-- Python `str.upper()`. -/
def pyUpperStr (s : String) : String := (s.data.map pyUpperChar).asString

/-! ## The `PACKET_PATTERN` regex

```
(\d{2}:\d{2}:\d{2}) - (\d{1,2}/\d{1,2}/\d{4}) U: (RX|TX), len=(\d+)
\(type=(\d+), route=([A-Z]), payload_len=(\d+)\)
(?: SNR=(-?\d+) RSSI=(-?\d+) score=(\d+)( time=(\d+))? hash=([0-9A-F]+)
(?: \[(.*)\])?)?
```
compiled with `re.match` (anchored at the start, trailing text
allowed).  Every quantifier in the pattern is deterministic: each
`\d+` / `[0-9A-F]+` is followed by a non-matching literal so maximal
munch is exact; `\d{1,2}` is followed by `/`, and a digit in second
position excludes the one-digit reading, so the greedy choice never
needs revisiting; the optional groups fail or succeed atomically; the
final `(.*)\]` takes everything up to the last `]` in the
newline-free remainder. -/

/-- Exactly `n` ASCII digits. -/
def parseDigitN (n : Nat) (s : List Char) : Option (List Char × List Char) :=
  let ds := s.take n
  if ds.length == n && ds.all Char.isDigit then some (ds, s.drop n) else none

/-- One or more ASCII digits, maximal munch (`\d+`). -/
def parseDigits1 (s : List Char) : Option (List Char × List Char) :=
  let ds := s.takeWhile Char.isDigit
  if ds.isEmpty then none else some (ds, s.dropWhile Char.isDigit)

/-- A literal that must appear next. -/
def parseLit (lit s : List Char) : Option (List Char) :=
  if startsWithList lit s then some (s.drop lit.length) else none

/-- The `\d{1,2}` quantifier positioned before a `/`: two digits are taken exactly
when the second character is a digit (in which case the one-digit
reading would fail at the following `/` anyway). -/
def parseDayMonth : List Char → Option (List Char × List Char)
  | [] => none
  | [c] => if c.isDigit then some ([c], []) else none
  | c1 :: c2 :: r =>
    if c1.isDigit then
      if c2.isDigit then some ([c1, c2], r) else some ([c1], c2 :: r)
    else none

/-- The alternation `(RX|TX)`. -/
def parseDir (s : List Char) : Option (List Char × List Char) :=
  if startsWithList "RX".data s then some ("RX".data, s.drop 2)
  else if startsWithList "TX".data s then some ("TX".data, s.drop 2)
  else none

/-- The group `([A-Z])`. -/
def parseRoute : List Char → Option (List Char × List Char)
  | [] => none
  | c :: r => if 'A' ≤ c ∧ c ≤ 'Z' then some ([c], r) else none

/-- The group `-?\d+`. -/
def parseSigned : List Char → Option (List Char × List Char)
  | '-' :: r =>
    match parseDigits1 r with
    | some (ds, rest) => some ('-' :: ds, rest)
    | none => none
  | s => parseDigits1 s

/-- Characters of `[0-9A-F]`. -/
def isHexUpChar (c : Char) : Bool :=
  c.isDigit || (decide ('A' ≤ c) && decide (c ≤ 'F'))

/-- The group `[0-9A-F]+`, maximal munch. -/
def parseHex1 (s : List Char) : Option (List Char × List Char) :=
  let hs := s.takeWhile isHexUpChar
  if hs.isEmpty then none else some (hs, s.dropWhile isHexUpChar)

/-- The optional `( time=(\d+))?` group: consumed only when the whole
group matches. -/
def parseOptTime (s : List Char) : Option (List Char) × List Char :=
  match parseLit " time=".data s with
  | some s2 =>
    match parseDigits1 s2 with
    | some (ds, s3) => (some ds, s3)
    | none => (none, s)
  | none => (none, s)

/-- The optional `(?: \[(.*)\])?` group: `.` excludes newlines, and
the greedy `(.*)` reaches the last `]` of the newline-free remainder;
with no such `]` the group is skipped. -/
def parsePathGroup (s : List Char) : Option (List Char) :=
  match parseLit " [".data s with
  | some s2 =>
    let pre := s2.takeWhile (fun c => c ≠ '\n')
    match pre.reverse.dropWhile (fun c => c ≠ ']') with
    | [] => none
    | _ :: tail => some tail.reverse
  | none => none

/-- Capture groups 8–14 of `PACKET_PATTERN` (the rx-only block). -/
structure PacketMeta where
  snr : String
  rssi : String
  score : String
  duration : Option String
  hash : String
  path : Option String
deriving DecidableEq, Repr

/-- The whole `(?: SNR=… )?` optional block. -/
def parseMeta (s : List Char) : Option PacketMeta := do
  let s ← parseLit " SNR=".data s
  let (snr, s) ← parseSigned s
  let s ← parseLit " RSSI=".data s
  let (rssi, s) ← parseSigned s
  let s ← parseLit " score=".data s
  let (sc, s) ← parseDigits1 s
  let (dur, s) := parseOptTime s
  let s ← parseLit " hash=".data s
  let (hs, _s) ← parseHex1 s
  let path := parsePathGroup _s
  pure { snr := snr.asString, rssi := rssi.asString, score := sc.asString,
         duration := dur.map List.asString, hash := hs.asString,
         path := path.map List.asString }

/-- All capture groups of a successful `PACKET_PATTERN.match`. -/
structure PacketGroups where
  time : String
  date : String
  dir : String
  len : String
  ptype : String
  route : String
  plen : String
  meta : Option PacketMeta
deriving DecidableEq, Repr

/-- Group 1 (`\d{2}:\d{2}:\d{2}`) after its two leading digits. -/
def parseTimeTail (hh : List Char) (s0 : List Char) : Option (List Char × List Char) := do
  let s ← parseLit [':'] s0
  let (mm, s) ← parseDigitN 2 s
  let s ← parseLit [':'] s
  let (ss, s) ← parseDigitN 2 s
  pure (hh ++ ':' :: mm ++ ':' :: ss, s)

/-- Group 2 (`\d{1,2}/\d{1,2}/\d{4}`). -/
def parseDate (s0 : List Char) : Option (List Char × List Char) := do
  let (d1, s) ← parseDayMonth s0
  let s ← parseLit ['/'] s
  let (d2, s) ← parseDayMonth s
  let s ← parseLit ['/'] s
  let (yr, s) ← parseDigitN 4 s
  pure (d1 ++ '/' :: d2 ++ '/' :: yr, s)

/-- Groups 3–7: direction, total length, type, route, payload length. -/
def parseCore (s0 : List Char) :
    Option ((List Char × List Char × List Char × List Char × List Char) × List Char) := do
  let (dir, s) ← parseDir s0
  let s ← parseLit ", len=".data s
  let (ln, s) ← parseDigits1 s
  let s ← parseLit " (type=".data s
  let (ty, s) ← parseDigits1 s
  let s ← parseLit ", route=".data s
  let (rt, s) ← parseRoute s
  let s ← parseLit ", payload_len=".data s
  let (pl, s) ← parseDigits1 s
  let s ← parseLit [')'] s
  pure ((dir, ln, ty, rt, pl), s)

/-- The remainder of `PACKET_PATTERN` after the two leading digits. -/
def matchRest1 (hh : List Char) (s0 : List Char) : Option PacketGroups := do
  let (t, s) ← parseTimeTail hh s0
  let s ← parseLit " - ".data s
  let (d, s) ← parseDate s
  let s ← parseLit " U: ".data s
  let ((dir, ln, ty, rt, pl), s) ← parseCore s
  let meta := parseMeta s
  pure { time := t.asString, date := d.asString,
         dir := dir.asString, len := ln.asString, ptype := ty.asString,
         route := rt.asString, plen := pl.asString, meta := meta }

/-- Evaluation of `PACKET_PATTERN.match(line)` (`None` ↦ `none`). -/
def matchPacket (line : String) : Option PacketGroups :=
  match parseDigitN 2 line.data with
  | none => none
  | some (hh, s1) => matchRest1 hh s1

/-! ## `parse_and_publish` -/

/-- The counters and the pending-raw register the parser mutates:
`MeshCoreBridge.last_raw` and the `packets_rx` / `packets_tx` /
`bytes_processed` entries of `self.stats`. -/
structure ParserState where
  last_raw : Option String
  bytes_processed : Nat
  packets_rx : Nat
  packets_tx : Nat
deriving DecidableEq, Repr

/-- The raw-frame marker `"U RAW:"`. -/
def rawMarker : List Char := "U RAW:".data

/-- The debug-line marker `"DEBUG"`, checked with `startswith`. -/
def debugChars : List Char := "DEBUG".data

/-- The rx-only fields of a published packet message (values are the
regex capture groups, which may be `None` when the optional block did
not participate in the match). -/
structure RxFields where
  snr : Option String
  rssi : Option String
  score : Option String
  duration : Option String
  hash : Option String
  path : Option String
deriving DecidableEq, Repr

/-- The payload dict built for a matched packet line: groups 1–7, the
pending `raw`, and — for rx only — groups 8/9/10/12/13 plus `path`
(group 14, added only when the route is `D`). -/
structure PacketMsg where
  direction : String
  time : String
  date : String
  len : String
  packet_type : String
  route : String
  payload_len : String
  raw : Option String
  rx : Option RxFields
deriving DecidableEq, Repr

/-- The telemetry events a processed line gives rise to: a recognized
raw frame (stored in the pending-raw register), a forwarded debug
line, or a published packet message. -/
inductive Event where
  | raw (hexPayload : String)
  | debug (text : String)
  | packet (msg : PacketMsg)
deriving DecidableEq, Repr

/-- Python `line.split("U RAW:")[1]`: the segment between the first marker
occurrence and the next one (or the end of the line). -/
def rawSegment (post : List Char) : List Char :=
  match splitFirst rawMarker post with
  | some (pre2, _) => pre2
  | none => post

/-- Python `"U RAW:" in line` (equivalently `len(line.split("U RAW:")) > 1`). -/
def containsRawMarker (line : String) : Bool :=
  (splitFirst rawMarker line.data).isSome

/-- The hex payload the raw branch extracts: `line.split("U RAW:")[1].strip()`. -/
def extractRawHex (line : String) : Option String :=
  match splitFirst rawMarker line.data with
  | some (_, post) => some (trimList (rawSegment post)).asString
  | none => none

/-- The raw branch of `parse_and_publish`: store the stripped payload
in `last_raw` and account `len(raw_hex) // 2` bytes. -/
def rawStep (st : ParserState) (line : String) : ParserState × List Event :=
  match splitFirst rawMarker line.data with
  | some (_, post) =>
    let raw_hex := (trimList (rawSegment post)).asString
    ({ st with last_raw := some raw_hex,
               bytes_processed := st.bytes_processed + raw_hex.length / 2 },
     [Event.raw raw_hex])
  | none => (st, [])

/-- The packet-counter update: `packets_rx += 1` when
`group(3).lower() == "rx"` else `packets_tx += 1`. -/
def packetCounter (st : ParserState) (g : PacketGroups) : ParserState :=
  if pyLowerStr g.dir = "rx" then { st with packets_rx := st.packets_rx + 1 }
  else { st with packets_tx := st.packets_tx + 1 }

/-- The payload dict built for a matched line, with `raw` read from
the pending-raw register (after the same line's raw branch, exactly as
`self.last_raw` is read).  The `path` key is added only under
`packet_match.group(6) == "D" and packet_match.group(14)` — a Python
truthiness test, so a present-but-empty bracket capture (a line ending
in `[]`) adds no key. -/
def mkPacketMsg (g : PacketGroups) (lastRaw : Option String) : PacketMsg :=
  let dir := pyLowerStr g.dir
  { direction := dir, time := g.time, date := g.date, len := g.len,
    packet_type := g.ptype, route := g.route, payload_len := g.plen,
    raw := lastRaw,
    rx := if dir = "rx" then
        some { snr := g.meta.map (·.snr), rssi := g.meta.map (·.rssi),
               score := g.meta.map (·.score),
               duration := g.meta.bind (·.duration),
               hash := g.meta.map (·.hash),
               path := if g.route = "D" then
                   match g.meta.bind (·.path) with
                   | some p => if p = "" then none else some p
                   | none => none
                 else none }
      else none }

/-- One call of `parse_and_publish(line)`: the raw branch first (no
`return`), then the debug branch (guarded by `self.debug` and
`line.startswith("DEBUG")`, with `return`), then the packet branch. -/
def processLine (debug : Bool) (st : ParserState) (line : String) :
    ParserState × List Event :=
  if line.data.isEmpty then (st, [])
  else
    let p := rawStep st line
    if debug && startsWithList debugChars line.data then
      (p.1, p.2 ++ [Event.debug line])
    else match matchPacket line with
      | some g => (packetCounter p.1 g, p.2 ++ [Event.packet (mkPacketMsg g p.1.last_raw)])
      | none => p

/-- A whole run of the line loop. -/
def processLines (debug : Bool) (st : ParserState) (lines : List String) :
    ParserState × List Event :=
  lines.foldl
    (fun acc l =>
      let r := processLine debug acc.1 l
      (r.1, acc.2 ++ r.2))
    (st, [])

/-! ## `generate_auth_credentials` (credential manager) -/

/-- The per-broker configuration `generate_auth_credentials` reads
from the environment, plus the device identity fields it uses.
`token_ttl` is `self.token_ttl` (3600 s in the source); times are
rationals standing for `time.time()` values. -/
structure CredConfig where
  use_auth_token : Bool
  pub_key : String
  priv_key : Option String
  token_ttl : ℚ
  audience : String
  owner : String
  email : String
  use_tls : Bool
  tls_verify : Bool
  static_username : String
  static_password : String
  client_version : String
deriving DecidableEq

/-- The token cache `self.token_cache`: broker index ↦ (token, creation time). -/
abbrev TokenCache := List (Nat × String × ℚ)

/-- Dict assignment `self.token_cache[broker_num] = (password, now)`. -/
def cacheInsert (cache : TokenCache) (broker_num : Nat) (tok : String) (now : ℚ) :
    TokenCache :=
  (broker_num, tok, now) :: cache.filter (fun e => e.1 ≠ broker_num)

/-- The claim set built on the cache-miss/refresh path: `aud` only if
an audience is configured, `owner`/`email` only when
`use_tls and tls_verify` (and the configured value is non-empty;
`email` is lower-cased), and always `client`. -/
def buildClaims (cfg : CredConfig) : List (String × String) :=
  let claims := if cfg.audience ≠ "" then [("aud", cfg.audience)] else []
  let secure := cfg.use_tls && cfg.tls_verify
  let claims := claims ++
    (if secure then
       (if cfg.owner ≠ "" then [("owner", cfg.owner)] else []) ++
       (if cfg.email ≠ "" then [("email", pyLowerStr cfg.email)] else [])
     else [])
  claims ++ [("client", cfg.client_version)]

/-- Whether a key is present in a claim set. -/
def hasClaim (claims : List (String × String)) (k : String) : Bool :=
  (claims.lookup k).isSome

/-- The call `generate_auth_credentials(broker_num, force_refresh)`.
`signResult` is the outcome of the external signing capability
(`create_auth_token`): `some pw` when it returns a token, `none` when
it raises.  Returns the optional `(username, password)` pair and the
updated token cache. -/
def generate_auth_credentials (cfg : CredConfig) (cache : TokenCache)
    (broker_num : Nat) (force_refresh : Bool) (now : ℚ)
    (signResult : Option String) :
    Option (String × String) × TokenCache :=
  if cfg.use_auth_token then
    match cfg.priv_key with
    | none => (none, cache)
    | some _ =>
      let cachedHit : Option String :=
        if force_refresh then none
        else match cache.lookup broker_num with
          | some (tok, created_at) =>
            if now - created_at < cfg.token_ttl - 300 then some tok else none
          | none => none
      match cachedHit with
      | some tok => (some ("v1_" ++ pyUpperStr cfg.pub_key, tok), cache)
      | none =>
        match signResult with
        | some pw =>
          (some ("v1_" ++ pyUpperStr cfg.pub_key, pw), cacheInsert cache broker_num pw now)
        | none => (none, cache)
  else (some (cfg.static_username, cfg.static_password), cache)

/-! ## `safe_publish` (fan-out publish) -/

/-- The slice of one `mqtt_clients` entry `safe_publish` touches:
the broker index, an identity tag for the paho client object, and the
`connected` flag. -/
structure SlotPub where
  broker_num : Nat
  clientId : Nat
  connected : Bool
deriving DecidableEq, Repr

/-- The targeted entries: all of `mqtt_clients`, or the entries whose
client object is the one passed in. -/
def attemptTargets (slots : List SlotPub) (target : Option Nat) : List SlotPub :=
  match target with
  | some cid => slots.filter (fun s => s.clientId == cid)
  | none => slots

/-- The body of the per-broker loop: `sendOk` tells whether
`client.publish` returned `MQTT_ERR_SUCCESS` for that client (an
exception from `publish` behaves like a failed return code: counted,
loop continues).  The accumulator is (success flag, failure counter,
attempted client ids). -/
def publishFold (sendOk : Nat → Bool) (acc : Bool × Nat × List Nat) (s : SlotPub) :
    Bool × Nat × List Nat :=
  if sendOk s.clientId then (true, acc.2.1, acc.2.2 ++ [s.clientId])
  else (acc.1, acc.2.1 + 1, acc.2.2 ++ [s.clientId])

/-- The call `safe_publish(topic, payload, retain, client)`: gated on the
global `self.mqtt_connected` flag (counting one failure and attempting
nothing when it is down), otherwise looping over every targeted entry.
Returns (overall success, new failure counter, attempted client ids). -/
def safe_publish (mqtt_connected : Bool) (publish_failures : Nat)
    (slots : List SlotPub) (target : Option Nat) (sendOk : Nat → Bool) :
    Bool × Nat × List Nat :=
  if !mqtt_connected then (false, publish_failures + 1, [])
  else (attemptTargets slots target).foldl (publishFold sendOk) (false, publish_failures, [])

/-! ## The shared reconnect backoff (`self.reconnect_delay`) -/

/-- Initialization `self.reconnect_delay = 1.0` at startup. -/
def initialReconnectDelay : ℚ := 1

/-- The ceiling `self.max_reconnect_delay = 120.0`. -/
def maxReconnectDelay : ℚ := 120

/-- The factor `self.reconnect_backoff = 1.5`. -/
def reconnectBackoff : ℚ := 1.5

/-- The two events that touch the shared delay: a failed
`create_and_connect_broker` in the reconnect sweep, and a successful
connect acknowledgement (`rc == 0`) in `on_mqtt_connect`. -/
inductive ReconnEvent where
  | fail
  | success
deriving DecidableEq, Repr

/-- The update of the single shared delay value:
`self.reconnect_delay = min(self.reconnect_delay * self.reconnect_backoff,
self.max_reconnect_delay)` on a failure and `self.reconnect_delay = 1.0`
on any slot's successful connection. -/
def backoffStep (d : ℚ) : ReconnEvent → ℚ
  | .fail => min (d * reconnectBackoff) maxReconnectDelay
  | .success => initialReconnectDelay

/-- The shared delay after a sequence of events from process start. -/
def backoffRun (events : List ReconnEvent) : ℚ :=
  events.foldl backoffStep initialReconnectDelay

/-! ## `get_repeater_pubkey` -/

/-- The prompt marker `"-> >"` command responses are split on. -/
def promptMarker : List Char := "-> >".data

/-- Python `response.split("-> >")[1]` when the marker occurs. -/
def extractAfterPrompt (response : List Char) : Option (List Char) :=
  match splitFirst promptMarker response with
  | some (_, post) =>
    some (match splitFirst promptMarker post with
          | some (pre2, _) => pre2
          | none => post)
  | none => none

/-- The cleaning `get_repeater_pubkey` applies to the extracted
segment: `strip()`, truncate at the first newline, then delete every
`' '`, `'\r'`, `'\n'`. -/
def cleanKey (seg : List Char) : List Char :=
  let t := trimList seg
  let t := t.takeWhile (fun c => c ≠ '\n')
  t.filter (fun c => c ≠ ' ' && c ≠ '\r' && c ≠ '\n')

/-- Membership in `'0123456789ABCDEFabcdef'`. -/
def isPyHexChar (c : Char) : Bool := "0123456789ABCDEFabcdef".data.contains c

/-- The operation `get_repeater_pubkey` on a device response: `some key` when the
key is accepted and stored (`self.repeater_pub_key = clean.upper()`),
`none` when the function returns `False` without setting any key. -/
def get_repeater_pubkey (response : String) : Option String :=
  match extractAfterPrompt response.data with
  | some seg =>
    let k := cleanKey seg
    if !(!k.isEmpty && k.length == 64 && k.all isPyHexChar) then none
    else some (k.map pyUpperChar).asString
  | none => none

/-! ## The stats tick (`_stats_logging_loop`) -/

/-- A device-stats dict (`self.stats['device']` /
`self.stats['device_prev']`); Python dict truthiness is emptiness of
the association list. -/
abbrev DeviceStats := List (String × Int)

/-- The effect of one stats tick on the `device` / `device_prev`
slots: `query` is what `get_device_stats()` returned this tick
(possibly empty).  `self.stats['device'] = device_stats` runs only
`if device_stats:`; at the end of the tick
`self.stats['device_prev'] = self.stats['device'].copy()` runs only
`if self.stats['device']:` — a non-emptiness test on the retained
current dict, not on this tick's query. -/
def stats_tick (device device_prev query : DeviceStats) : DeviceStats × DeviceStats :=
  let device' := if query.isEmpty then device else query
  let device_prev' := if device'.isEmpty then device_prev else device'
  (device', device_prev')

/-- The startup initialization of the two slots (`run`): both start
empty, and when the initial `get_device_stats()` is truthy, `device`
and `device_prev` are set to it together — so `device_prev = device`
holds when the tick loop starts, and every tick end re-establishes it. -/
def stats_startup (query : DeviceStats) : DeviceStats × DeviceStats :=
  if query.isEmpty then ([], []) else (query, query)

/-! ## Connect / disconnect callbacks and the global connected flag -/

/-- The slice of one `mqtt_clients` entry the callbacks touch. -/
structure SlotC where
  broker_num : Nat
  connected : Bool
deriving DecidableEq, Repr

/-- The broker-list plus the global `self.mqtt_connected` flag. -/
structure ConnState where
  slots : List SlotC
  mqtt_connected : Bool
deriving DecidableEq, Repr

/-- Mutating the first entry whose `broker_num` matches (the callbacks
scan `self.mqtt_clients` and `break` at the first hit). -/
def setConnected (bn : Nat) (v : Bool) : List SlotC → List SlotC
  | [] => []
  | s :: rest =>
    if s.broker_num == bn then { s with connected := v } :: rest
    else s :: setConnected bn v rest

/-- The callback `on_mqtt_connect`: with `rc == 0` and the broker found in
`mqtt_clients`, mark the slot connected and set the global flag; with
`rc == 0` but no matching entry, return after logging; with a failure
code, change nothing. -/
def on_mqtt_connect (st : ConnState) (bn : Nat) (rc : Nat) : ConnState :=
  if rc == 0 then
    if st.slots.any (fun s => s.broker_num == bn) then
      { slots := setConnected bn true st.slots, mqtt_connected := true }
    else st
  else st

/-- The callback `on_mqtt_disconnect`: with the broker found, mark the slot
disconnected and clear the global flag exactly when every entry is now
disconnected; with no matching entry, return after logging. -/
def on_mqtt_disconnect (st : ConnState) (bn : Nat) : ConnState :=
  if st.slots.any (fun s => s.broker_num == bn) then
    let slots' := setConnected bn false st.slots
    { slots := slots',
      mqtt_connected := if slots'.all (fun s => !s.connected) then false
                        else st.mqtt_connected }
  else st

/-! ## `create_auth_token` (`auth_token.py`) -/

/-- The observable outcome of the external `meshcore-decoder`
invocation: normal completion with an exit status and captured output,
`subprocess.TimeoutExpired`, or `FileNotFoundError`. -/
inductive ToolOutcome where
  | completed (returncode : Int) (stdout : String) (stderr : String)
  | timedOut
  | notFound
deriving DecidableEq, Repr

/-- Python `token.count('.')`. -/
def countDots (t : String) : Nat := (t.data.filter (fun c => c == '.')).length

/-- The operation `create_auth_token`: `Except.error` models a raised exception
(the generic handler re-wraps the in-`try` raises, the timeout and
missing-tool handlers raise directly). -/
def create_auth_token (o : ToolOutcome) : Except String String :=
  match o with
  | .completed rc out err =>
    if rc ≠ 0 then
      .error ("Failed to generate auth token: meshcore-decoder error: " ++ err)
    else
      let token := (trimList out.data).asString
      if token = "" ∨ countDots token ≠ 2 then
        .error ("Failed to generate auth token: Invalid token format: " ++ token)
      else .ok token
  | .timedOut => .error "Token generation timed out"
  | .notFound =>
    .error "meshcore-decoder CLI not found. Please install: npm install -g @michaelhart/meshcore-decoder"

/-! ## Parser lemmas -/

theorem packetCounter_last_raw (st : ParserState) (g : PacketGroups) :
    (packetCounter st g).last_raw = st.last_raw := by
  unfold packetCounter; split <;> rfl

theorem packetCounter_bytes (st : ParserState) (g : PacketGroups) :
    (packetCounter st g).bytes_processed = st.bytes_processed := by
  unfold packetCounter; split <;> rfl

theorem mkPacketMsg_raw (g : PacketGroups) (lr : Option String) :
    (mkPacketMsg g lr).raw = lr := rfl

/-- A matched line begins with two ASCII digits. -/
theorem matchPacket_two_digits (p : String) (g : PacketGroups)
    (hm : matchPacket p = some g) :
    ∃ c1 c2 r, p.data = c1 :: c2 :: r ∧ c1.isDigit = true ∧ c2.isDigit = true := by
  unfold matchPacket at hm
  cases hd : p.data with
  | nil => rw [hd] at hm; simp [parseDigitN] at hm
  | cons c1 t1 =>
    cases ht1 : t1 with
    | nil => rw [hd, ht1] at hm; simp [parseDigitN] at hm
    | cons c2 r =>
      subst ht1
      rw [hd] at hm
      by_cases hd1 : c1.isDigit = true
      · by_cases hd2 : c2.isDigit = true
        · exact ⟨c1, c2, r, rfl, hd1, hd2⟩
        · simp [parseDigitN, hd1, hd2] at hm
      · simp [parseDigitN, hd1] at hm

/-- A matched line never passes the `line.startswith("DEBUG")` test. -/
theorem matchPacket_no_debug (p : String) (g : PacketGroups)
    (hm : matchPacket p = some g) :
    startsWithList debugChars p.data = false := by
  obtain ⟨c1, c2, r, hd, hd1, _⟩ := matchPacket_two_digits p g hm
  have hDne : ('D' == c1) = false := by
    cases hbe : ('D' == c1) with
    | false => rfl
    | true =>
      have hce : 'D' = c1 := eq_of_beq hbe
      rw [← hce] at hd1
      exact absurd hd1 (by decide)
  rw [hd]
  show startsWithList ('D' :: "EBUG".data) (c1 :: c2 :: r) = false
  simp [startsWithList, hDne]

/-- The effect of the raw branch when the marker is present. -/
theorem rawStep_marker (st : ParserState) (line : String) (pre post : List Char)
    (hsf : splitFirst rawMarker line.data = some (pre, post)) :
    rawStep st line =
      ({ st with
           last_raw := some (trimList (rawSegment post)).asString,
           bytes_processed :=
             st.bytes_processed + (trimList (rawSegment post)).asString.length / 2 },
       [Event.raw (trimList (rawSegment post)).asString]) := by
  simp [rawStep, hsf]

theorem extractRawHex_marker (line : String) (pre post : List Char)
    (hsf : splitFirst rawMarker line.data = some (pre, post)) :
    extractRawHex line = some (trimList (rawSegment post)).asString := by
  simp [extractRawHex, hsf]

/-- A marker line stores the stripped payload in the pending-raw
register, accounts half its character count into `bytes_processed`,
and registers a `Raw` event — whatever the rest of the line is. -/
theorem processLine_marker (debug : Bool) (st : ParserState) (line : String)
    (pre post : List Char)
    (hsf : splitFirst rawMarker line.data = some (pre, post)) :
    (processLine debug st line).1.last_raw = some (trimList (rawSegment post)).asString ∧
    (processLine debug st line).1.bytes_processed =
      st.bytes_processed + (trimList (rawSegment post)).asString.length / 2 ∧
    Event.raw (trimList (rawSegment post)).asString ∈ (processLine debug st line).2 := by
  have hne : line.data.isEmpty = false := by
    cases hld : line.data with
    | nil => rw [hld] at hsf; exact absurd hsf (by simp [splitFirst])
    | cons a as => simp
  have hrs := rawStep_marker st line pre post hsf
  by_cases hdbg : (debug && startsWithList debugChars line.data) = true
  · simp [processLine, hne, hdbg, hrs]
  · cases hmp : matchPacket line with
    | none => simp [processLine, hne, hdbg, hrs, hmp]
    | some g =>
      simp [processLine, hne, hdbg, hrs, hmp, packetCounter_last_raw, packetCounter_bytes]

/-- A matching packet line that carries no raw marker: counters are
bumped, one packet event is emitted whose `raw` field reads the
pending-raw register, and the register is left untouched. -/
theorem processLine_packet (debug : Bool) (st : ParserState) (p : String)
    (g : PacketGroups) (hm : matchPacket p = some g)
    (hr : containsRawMarker p = false) :
    processLine debug st p = (packetCounter st g, [Event.packet (mkPacketMsg g st.last_raw)]) := by
  obtain ⟨c1, c2, r, hd, _, _⟩ := matchPacket_two_digits p g hm
  have hne : p.data.isEmpty = false := by rw [hd]; rfl
  have hsf : splitFirst rawMarker p.data = none := by
    cases hx : splitFirst rawMarker p.data with
    | none => rfl
    | some pr =>
      rw [containsRawMarker, hx] at hr
      exact absurd hr (by simp)
  have hdbg := matchPacket_no_debug p g hm
  simp [processLine, hne, rawStep, hsf, hdbg, hm, Bool.and_false]

/-! ## Claim theorems: telemetry parser -/

/-- C1: for every run of the line loop, a `Raw` line followed by a
matching `Packet` line (over any starting parser state, i.e. any prior
sequence of input lines) emits a packet whose `raw` field is exactly
the raw line's stripped hex payload; emitting the packet does not
clear the pending-raw register, so a second consecutive packet line
with no intervening raw line carries the same stale payload. -/
theorem packet_raw_correlation (debug : Bool) (st : ParserState)
    (lraw p1 p2 : String)
    (hraw : containsRawMarker lraw = true)
    (hp1 : (matchPacket p1).isSome = true) (hp1r : containsRawMarker p1 = false)
    (hp2 : (matchPacket p2).isSome = true) (hp2r : containsRawMarker p2 = false) :
    ∃ hx m1 m2,
      extractRawHex lraw = some hx ∧
      (processLine debug st lraw).1.last_raw = some hx ∧
      (processLine debug (processLine debug st lraw).1 p1).2 = [Event.packet m1] ∧
      m1.raw = some hx ∧
      (processLine debug (processLine debug st lraw).1 p1).1.last_raw = some hx ∧
      (processLine debug (processLine debug (processLine debug st lraw).1 p1).1 p2).2 =
        [Event.packet m2] ∧
      m2.raw = some hx ∧
      (processLine debug (processLine debug (processLine debug st lraw).1 p1).1 p2).1.last_raw
        = some hx := by
  rw [containsRawMarker, Option.isSome_iff_exists] at hraw
  obtain ⟨⟨pre, post⟩, hsf⟩ := hraw
  rw [Option.isSome_iff_exists] at hp1 hp2
  obtain ⟨g1, hg1⟩ := hp1
  obtain ⟨g2, hg2⟩ := hp2
  set hx := (trimList (rawSegment post)).asString with hhx
  obtain ⟨h1, _, _⟩ := processLine_marker debug st lraw pre post hsf
  set st1 := (processLine debug st lraw).1 with hst1
  have hP1 := processLine_packet debug st1 p1 g1 hg1 hp1r
  refine ⟨hx, mkPacketMsg g1 (some hx), mkPacketMsg g2 (some hx),
    extractRawHex_marker lraw pre post hsf, h1, ?_, mkPacketMsg_raw _ _, ?_, ?_, mkPacketMsg_raw _ _, ?_⟩
  · rw [hP1]; rw [h1]
  · rw [hP1]; simp [packetCounter_last_raw, h1]
  · have hst2 : (processLine debug st1 p1).1.last_raw = some hx := by
      rw [hP1]; simp [packetCounter_last_raw, h1]
    have hP2 := processLine_packet debug (processLine debug st1 p1).1 p2 g2 hg2 hp2r
    rw [hP2, hst2]
  · have hst2 : (processLine debug st1 p1).1.last_raw = some hx := by
      rw [hP1]; simp [packetCounter_last_raw, h1]
    have hP2 := processLine_packet debug (processLine debug st1 p1).1 p2 g2 hg2 hp2r
    rw [hP2]; simp [packetCounter_last_raw, hst2]

/-- C1 witness: the spec §8 scenario, plus a second packet line with
no intervening raw line. -/
theorem packet_raw_correlation_witness :
    ∃ hx m1 m2,
      extractRawHex "12:00:00 - 1/1/2025 U RAW: A1B2C3" = some hx ∧
      (processLine false ⟨none, 0, 0, 0⟩ "12:00:00 - 1/1/2025 U RAW: A1B2C3").1.last_raw = some hx ∧
      (processLine false (processLine false ⟨none, 0, 0, 0⟩ "12:00:00 - 1/1/2025 U RAW: A1B2C3").1
        "12:00:01 - 1/1/2025 U: RX, len=10 (type=1, route=D, payload_len=4) SNR=5 RSSI=-80 score=90 hash=DEADBEEF").2 = [Event.packet m1] ∧
      m1.raw = some hx ∧
      (processLine false (processLine false ⟨none, 0, 0, 0⟩ "12:00:00 - 1/1/2025 U RAW: A1B2C3").1
        "12:00:01 - 1/1/2025 U: RX, len=10 (type=1, route=D, payload_len=4) SNR=5 RSSI=-80 score=90 hash=DEADBEEF").1.last_raw = some hx ∧
      (processLine false (processLine false (processLine false ⟨none, 0, 0, 0⟩ "12:00:00 - 1/1/2025 U RAW: A1B2C3").1
        "12:00:01 - 1/1/2025 U: RX, len=10 (type=1, route=D, payload_len=4) SNR=5 RSSI=-80 score=90 hash=DEADBEEF").1
        "12:00:02 - 1/1/2025 U: TX, len=8 (type=2, route=F, payload_len=2)").2 = [Event.packet m2] ∧
      m2.raw = some hx ∧
      (processLine false (processLine false (processLine false ⟨none, 0, 0, 0⟩ "12:00:00 - 1/1/2025 U RAW: A1B2C3").1
        "12:00:01 - 1/1/2025 U: RX, len=10 (type=1, route=D, payload_len=4) SNR=5 RSSI=-80 score=90 hash=DEADBEEF").1
        "12:00:02 - 1/1/2025 U: TX, len=8 (type=2, route=F, payload_len=2)").1.last_raw = some hx :=
  packet_raw_correlation false ⟨none, 0, 0, 0⟩
    "12:00:00 - 1/1/2025 U RAW: A1B2C3"
    "12:00:01 - 1/1/2025 U: RX, len=10 (type=1, route=D, payload_len=4) SNR=5 RSSI=-80 score=90 hash=DEADBEEF"
    "12:00:02 - 1/1/2025 U: TX, len=8 (type=2, route=F, payload_len=2)"
    (by decide) (by decide) (by decide) (by decide) (by decide)

/-- C2: a line containing the raw-frame marker stores its stripped
hex payload in the pending-raw register, adds half the payload's
character count to the cumulative `bytes_processed` counter, and
yields a `Raw` event. -/
theorem raw_line_effect (debug : Bool) (st : ParserState) (line : String)
    (h : containsRawMarker line = true) :
    ∃ hx, extractRawHex line = some hx ∧
      (processLine debug st line).1.last_raw = some hx ∧
      (processLine debug st line).1.bytes_processed = st.bytes_processed + hx.length / 2 ∧
      Event.raw hx ∈ (processLine debug st line).2 := by
  rw [containsRawMarker, Option.isSome_iff_exists] at h
  obtain ⟨⟨pre, post⟩, hsf⟩ := h
  obtain ⟨h1, h2, h3⟩ := processLine_marker debug st line pre post hsf
  exact ⟨(trimList (rawSegment post)).asString,
    extractRawHex_marker line pre post hsf, h1, h2, h3⟩

/-- C2 witness: the spec §8 raw line on a concrete state. -/
theorem raw_line_effect_witness :
    ∃ hx, extractRawHex "12:00:00 - 1/1/2025 U RAW: A1B2C3" = some hx ∧
      (processLine false ⟨none, 5, 0, 0⟩ "12:00:00 - 1/1/2025 U RAW: A1B2C3").1.last_raw = some hx ∧
      (processLine false ⟨none, 5, 0, 0⟩ "12:00:00 - 1/1/2025 U RAW: A1B2C3").1.bytes_processed
        = 5 + hx.length / 2 ∧
      Event.raw hx ∈ (processLine false ⟨none, 5, 0, 0⟩ "12:00:00 - 1/1/2025 U RAW: A1B2C3").2 :=
  raw_line_effect false ⟨none, 5, 0, 0⟩ "12:00:00 - 1/1/2025 U RAW: A1B2C3" (by decide)

/-! ## Claim theorems: credential manager -/

theorem cacheInsert_lookup (cache : TokenCache) (bn : Nat) (pw : String) (now : ℚ) :
    (cacheInsert cache bn pw now).lookup bn = some (pw, now) := by
  simp [cacheInsert, List.lookup]

/-- C3: in token mode with a known private key, the cached token is
returned (with username `v1_<PUBKEY>` and an unchanged cache) exactly
under `¬forceRefresh`, a cache entry for the index, and
`age < ttl − 300`; in every other case a fresh token is generated,
returned, and overwrites the cache entry with the new issuance
timestamp. -/
theorem credential_cache_policy (cfg : CredConfig) (cache : TokenCache)
    (bn : Nat) (force : Bool) (now : ℚ) (sign : Option String)
    (htok : cfg.use_auth_token = true) (hpriv : cfg.priv_key.isSome = true) :
    (∀ tok created, force = false → cache.lookup bn = some (tok, created) →
       now - created < cfg.token_ttl - 300 →
       generate_auth_credentials cfg cache bn force now sign =
         (some ("v1_" ++ pyUpperStr cfg.pub_key, tok), cache)) ∧
    ((force = true ∨ cache.lookup bn = none ∨
        ∀ tok created, cache.lookup bn = some (tok, created) →
          ¬ (now - created < cfg.token_ttl - 300)) →
      (∀ pw, sign = some pw →
        generate_auth_credentials cfg cache bn force now sign =
          (some ("v1_" ++ pyUpperStr cfg.pub_key, pw), cacheInsert cache bn pw now) ∧
        (cacheInsert cache bn pw now).lookup bn = some (pw, now)) ∧
      (sign = none →
        generate_auth_credentials cfg cache bn force now sign = (none, cache))) := by
  rw [Option.isSome_iff_exists] at hpriv
  obtain ⟨pk, hpk⟩ := hpriv
  constructor
  · intro tok created hforce hlook hage
    simp [generate_auth_credentials, htok, hpk, hforce, hlook, hage]
  · intro hmiss
    have hhit : (if force then none
        else match cache.lookup bn with
          | some (tok, created_at) =>
            if now - created_at < cfg.token_ttl - 300 then some tok else none
          | none => none) = (none : Option String) := by
      rcases hmiss with hf | hn | hstale
      · simp [hf]
      · simp [hn]
      · cases hl : cache.lookup bn with
        | none => simp
        | some tc =>
          obtain ⟨tok, created⟩ := tc
          have := hstale tok created hl
          simp [this]
    constructor
    · intro pw hpw
      refine ⟨?_, cacheInsert_lookup cache bn pw now⟩
      simp only [generate_auth_credentials, htok, if_true, hpk, hpw]
      rw [hhit]
    · intro hpw
      simp only [generate_auth_credentials, htok, if_true, hpk, hpw]
      rw [hhit]

/-- C3 witness: a fresh cache entry is reused; a stale one is
overwritten by the newly signed token. -/
theorem credential_cache_policy_witness :
    (generate_auth_credentials
        ⟨true, "ab", some "cd", 3600, "", "", "", false, true, "", "", "cv"⟩
        [(1, "cachedTok", 900)] 1 false 1000 (some "newTok") =
      (some ("v1_AB", "cachedTok"), [(1, "cachedTok", 900)])) ∧
    (generate_auth_credentials
        ⟨true, "ab", some "cd", 3600, "", "", "", false, true, "", "", "cv"⟩
        [(1, "cachedTok", 900)] 1 true 1000 (some "newTok") =
      (some ("v1_AB", "newTok"),
        cacheInsert [(1, "cachedTok", 900)] 1 "newTok" 1000)) :=
  ⟨(credential_cache_policy ⟨true, "ab", some "cd", 3600, "", "", "", false, true, "", "", "cv"⟩
      [(1, "cachedTok", 900)] 1 false 1000 (some "newTok")
      rfl rfl).1 "cachedTok" 900 rfl rfl (by norm_num),
   (((credential_cache_policy ⟨true, "ab", some "cd", 3600, "", "", "", false, true, "", "", "cv"⟩
      [(1, "cachedTok", 900)] 1 true 1000 (some "newTok")
      rfl rfl).2 (Or.inl rfl)).1 "newTok" rfl).1⟩

/-- A configuration with both TLS and TLS verification enabled but no
configured owner/email value. -/
def secureNoOwnerCfg : CredConfig :=
  ⟨true, "ab", some "cd", 3600, "", "", "", true, true, "", "", "meshcoretomqtt/test"⟩

/-- C4 counterexample: with TLS on and verification on but an empty
configured owner, the generated claim set contains no `owner` key, so
"present iff TLS and verification are enabled" fails. -/
theorem owner_claim_absent_despite_secure :
    ¬ (hasClaim (buildClaims secureNoOwnerCfg) "owner" = true ↔
       (secureNoOwnerCfg.use_tls = true ∧ secureNoOwnerCfg.tls_verify = true)) := by
  decide

/-- C4 (amended): `owner` (resp. `email`) is present in the claim set
iff TLS and TLS verification are both enabled *and* the corresponding
configured value is non-empty; when the transport is not secure the
claim set does not depend on the configured owner/email at all. -/
theorem claims_secure_gate (cfg : CredConfig) :
    hasClaim (buildClaims cfg) "owner" =
      (cfg.use_tls && cfg.tls_verify && !(cfg.owner == "")) ∧
    hasClaim (buildClaims cfg) "email" =
      (cfg.use_tls && cfg.tls_verify && !(cfg.email == "")) ∧
    (∀ o e, ¬ (cfg.use_tls = true ∧ cfg.tls_verify = true) →
      buildClaims { cfg with owner := o, email := e } = buildClaims cfg) := by
  have b1 : (("owner" : String) == "aud") = false := by decide
  have b2 : (("owner" : String) == "owner") = true := by decide
  have b3 : (("owner" : String) == "email") = false := by decide
  have b4 : (("owner" : String) == "client") = false := by decide
  have b5 : (("email" : String) == "aud") = false := by decide
  have b6 : (("email" : String) == "owner") = false := by decide
  have b7 : (("email" : String) == "email") = true := by decide
  have b8 : (("email" : String) == "client") = false := by decide
  refine ⟨?_, ?_, ?_⟩
  · by_cases ha : cfg.audience = "" <;>
      cases ht : cfg.use_tls <;> cases hv : cfg.tls_verify <;>
      by_cases ho : cfg.owner = "" <;> by_cases he : cfg.email = "" <;>
      simp [buildClaims, hasClaim, ha, ht, hv, ho, he, List.lookup,
        b1, b2, b3, b4, b5, b6, b7, b8]
  · by_cases ha : cfg.audience = "" <;>
      cases ht : cfg.use_tls <;> cases hv : cfg.tls_verify <;>
      by_cases ho : cfg.owner = "" <;> by_cases he : cfg.email = "" <;>
      simp [buildClaims, hasClaim, ha, ht, hv, ho, he, List.lookup,
        b1, b2, b3, b4, b5, b6, b7, b8]
  · intro o e hins
    cases ht : cfg.use_tls <;> cases hv : cfg.tls_verify
    · simp [buildClaims, ht, hv]
    · simp [buildClaims, ht, hv]
    · simp [buildClaims, ht, hv]
    · exact absurd ⟨ht, hv⟩ hins

/-- C4 witness: a plaintext broker with owner and email configured —
the claim set ignores them. -/
theorem claims_secure_gate_witness :
    hasClaim (buildClaims ⟨true, "ab", some "cd", 3600, "aud.example", "alice", "A@B.C",
        false, true, "", "", "cv"⟩) "owner" = false ∧
    buildClaims { (⟨true, "ab", some "cd", 3600, "aud.example", "alice", "A@B.C",
        false, true, "", "", "cv"⟩ : CredConfig) with owner := "x", email := "y" } =
      buildClaims ⟨true, "ab", some "cd", 3600, "aud.example", "alice", "A@B.C",
        false, true, "", "", "cv"⟩ :=
  ⟨(claims_secure_gate _).1.trans (by decide),
   (claims_secure_gate _).2.2 "x" "y" (by decide)⟩

/-! ## Claim theorems: fan-out publish -/

theorem publishFold_spec (sendOk : Nat → Bool) (ts : List SlotPub)
    (b : Bool) (f : Nat) (att : List Nat) :
    ts.foldl (publishFold sendOk) (b, f, att) =
      (b || ts.any (fun s => sendOk s.clientId),
       f + (ts.filter (fun s => !sendOk s.clientId)).length,
       att ++ ts.map (fun s => s.clientId)) := by
  induction ts generalizing b f att with
  | nil => simp
  | cons s t ih =>
    by_cases h : sendOk s.clientId = true
    · simp [publishFold, h, ih, Bool.or_assoc]
    · rw [Bool.not_eq_true] at h
      simp [publishFold, h, ih, Bool.or_assoc]
      omega

/-- C5: assuming the global flag's invariant (it mirrors "some slot is
connected", see the connect/disconnect callbacks): with no slot
connected, `safe_publish` fails at once, counts one failure, and
attempts no per-broker send; otherwise it attempts every targeted
entry (in particular every targeted connected slot), counts one
failure per refused send without aborting the rest, and succeeds
iff at least one targeted slot accepted the send. -/
theorem safe_publish_fanout (flag : Bool) (failures : Nat) (slots : List SlotPub)
    (target : Option Nat) (sendOk : Nat → Bool)
    (hinv : flag = slots.any (fun s => s.connected)) :
    ((∀ s ∈ slots, s.connected = false) →
       safe_publish flag failures slots target sendOk = (false, failures + 1, [])) ∧
    ((∃ s ∈ slots, s.connected = true) →
       (safe_publish flag failures slots target sendOk).2.2 =
         (attemptTargets slots target).map (fun s => s.clientId) ∧
       (∀ s ∈ attemptTargets slots target, s.connected = true →
          s.clientId ∈ (safe_publish flag failures slots target sendOk).2.2) ∧
       (safe_publish flag failures slots target sendOk).2.1 =
         failures + ((attemptTargets slots target).filter (fun s => !sendOk s.clientId)).length ∧
       ((safe_publish flag failures slots target sendOk).1 = true ↔
          ∃ s ∈ attemptTargets slots target, sendOk s.clientId = true)) := by
  constructor
  · intro hall
    have hany : slots.any (fun s => s.connected) = false := by
      rw [List.any_eq_false]
      intro s hs
      simp [hall s hs]
    rw [hany] at hinv
    simp [safe_publish, hinv]
  · intro hex
    have hany : slots.any (fun s => s.connected) = true := by
      rw [List.any_eq_true]
      obtain ⟨s, hs, hc⟩ := hex
      exact ⟨s, hs, hc⟩
    rw [hany] at hinv
    subst hinv
    have hsp : safe_publish true failures slots target sendOk =
        ((attemptTargets slots target).any (fun s => sendOk s.clientId),
         failures + ((attemptTargets slots target).filter (fun s => !sendOk s.clientId)).length,
         (attemptTargets slots target).map (fun s => s.clientId)) := by
      simp [safe_publish, publishFold_spec]
    rw [hsp]
    refine ⟨rfl, ?_, rfl, ?_⟩
    · intro s hs _
      exact List.mem_map_of_mem _ hs
    · simp [List.any_eq_true]

/-- C5 witness: no slot connected (immediate failure, one counted,
nothing attempted), and one of two slots connected with only the
second client's send accepted (overall success, both attempted). -/
theorem safe_publish_fanout_witness :
    safe_publish false 7 [⟨1, 10, false⟩, ⟨2, 20, false⟩] none (fun _ => true) =
      (false, 8, []) ∧
    ((safe_publish true 0 [⟨1, 10, true⟩, ⟨2, 20, false⟩] none (fun c => c == 20)).1 = true ↔
      ∃ s ∈ attemptTargets [⟨1, 10, true⟩, ⟨2, 20, false⟩] none,
        (fun c => c == 20) s.clientId = true) :=
  ⟨(safe_publish_fanout false 7 [⟨1, 10, false⟩, ⟨2, 20, false⟩] none (fun _ => true)
      (by decide)).1 (by decide),
   ((safe_publish_fanout true 0 [⟨1, 10, true⟩, ⟨2, 20, false⟩] none (fun c => c == 20)
      (by decide)).2 ⟨⟨1, 10, true⟩, by simp, rfl⟩).2.2.2⟩

/-! ## Claim theorems: shared reconnect backoff -/

theorem backoff_fold_bounds (events : List ReconnEvent) (d : ℚ)
    (h1 : 1 ≤ d) (h2 : d ≤ 120) :
    1 ≤ events.foldl backoffStep d ∧ events.foldl backoffStep d ≤ 120 := by
  induction events generalizing d with
  | nil => exact ⟨h1, h2⟩
  | cons e t ih =>
    cases e with
    | fail =>
      refine ih (min (d * reconnectBackoff) maxReconnectDelay) ?_ ?_
      · refine le_min ?_ (by norm_num [maxReconnectDelay])
        calc (1 : ℚ) ≤ d := h1
        _ = d * 1 := by ring
        _ ≤ d * reconnectBackoff := by
            apply mul_le_mul_of_nonneg_left (by norm_num [reconnectBackoff]) (by linarith)
      · exact min_le_right _ _
    | success => exact ih 1 le_rfl (by norm_num)

/-- C6: the shared backoff delay (a single value for all broker
slots) starts at the 1 s floor, stays within `[1, 120]` over every
event sequence, does not decrease on a failed reconnect attempt
(multiplication by 1.5 capped at 120 s), and is reset to the floor by
any slot's successful connection. -/
theorem backoff_shared_delay :
    backoffRun [] = 1 ∧
    (∀ events, 1 ≤ backoffRun events ∧ backoffRun events ≤ 120) ∧
    (∀ d : ℚ, 1 ≤ d → d ≤ 120 →
      d ≤ backoffStep d .fail ∧ backoffStep d .fail ≤ 120) ∧
    (∀ d : ℚ, backoffStep d .success = 1) := by
  refine ⟨rfl, ?_, ?_, fun d => rfl⟩
  · intro events
    exact backoff_fold_bounds events 1 le_rfl (by norm_num)
  · intro d h1 h2
    constructor
    · refine le_min ?_ ?_
      · calc d = d * 1 := by ring
          _ ≤ d * reconnectBackoff := by
              apply mul_le_mul_of_nonneg_left (by norm_num [reconnectBackoff]) (by linarith)
      · simpa [maxReconnectDelay] using h2
    · exact min_le_right _ _

/-- C6 witness: bounds after two failures, growth and cap from a
mid-range delay, and reset from an arbitrary delay. -/
theorem backoff_shared_delay_witness :
    (1 ≤ backoffRun [ReconnEvent.fail, ReconnEvent.fail] ∧
     backoffRun [ReconnEvent.fail, ReconnEvent.fail] ≤ 120) ∧
    ((3 : ℚ) / 2 ≤ backoffStep (3 / 2) .fail ∧ backoffStep (3 / 2) .fail ≤ 120) ∧
    backoffStep (100 : ℚ) .success = 1 :=
  ⟨backoff_shared_delay.2.1 [ReconnEvent.fail, ReconnEvent.fail],
   backoff_shared_delay.2.2.1 (3 / 2) (by norm_num) (by norm_num),
   backoff_shared_delay.2.2.2 100⟩

/-! ## Claim theorems: public-key validation -/

/-- C7: `get_repeater_pubkey` accepts a response only when the
cleaned extracted key is exactly 64 hex characters, in which case the
stored key is its uppercase normalization; any extracted input of
wrong length or with a non-hex character is rejected with no key
stored. -/
theorem pubkey_validation (response : String) :
    (∀ k, get_repeater_pubkey response = some k →
      ∃ seg, extractAfterPrompt response.data = some seg ∧
        (cleanKey seg).length = 64 ∧ (cleanKey seg).all isPyHexChar = true ∧
        k = ((cleanKey seg).map pyUpperChar).asString) ∧
    (∀ seg, extractAfterPrompt response.data = some seg →
      ((cleanKey seg).length ≠ 64 ∨ (cleanKey seg).all isPyHexChar = false) →
      get_repeater_pubkey response = none) := by
  cases hex : extractAfterPrompt response.data with
  | none =>
    constructor
    · intro k hk
      simp [get_repeater_pubkey, hex] at hk
    · intro seg hseg
      simp at hseg
  | some seg =>
    constructor
    · intro k hk
      simp only [get_repeater_pubkey, hex] at hk
      by_cases hc : (!(cleanKey seg).isEmpty && (cleanKey seg).length == 64 &&
          (cleanKey seg).all isPyHexChar) = true
      · rw [hc] at hk
        simp only [Bool.not_true, Bool.false_eq_true, if_false, Option.some.injEq] at hk
        have hparts := hc
        rw [Bool.and_eq_true, Bool.and_eq_true] at hparts
        obtain ⟨⟨_, hlen⟩, hhex⟩ := hparts
        exact ⟨seg, rfl, eq_of_beq hlen, hhex, hk.symm⟩
      · rw [Bool.not_eq_true] at hc
        rw [hc] at hk
        simp at hk
    · intro seg' hseg' hbad
      injection hseg' with hss
      subst hss
      have hc : (!(cleanKey seg).isEmpty && (cleanKey seg).length == 64 &&
          (cleanKey seg).all isPyHexChar) = false := by
        rcases hbad with hlen | hhex
        · have hb : ((cleanKey seg).length == 64) = false := beq_eq_false_iff_ne.mpr hlen
          simp [hb]
        · simp [hhex]
      simp [get_repeater_pubkey, hex, hc]

/-- C7 witness: a valid lowercase 64-hex response is stored
uppercased; a 63-character key is rejected. -/
theorem pubkey_validation_witness :
    (∃ seg,
      extractAfterPrompt ("get public.key\n-> > " ++
        "0123456789abcdef0123456789abcdef0123456789abcdef0123456789abcdef\nok").data =
        some seg ∧
      (cleanKey seg).length = 64 ∧ (cleanKey seg).all isPyHexChar = true ∧
      "0123456789ABCDEF0123456789ABCDEF0123456789ABCDEF0123456789ABCDEF" =
        ((cleanKey seg).map pyUpperChar).asString) ∧
    get_repeater_pubkey ("get public.key\n-> > " ++
        "0123456789abcdef0123456789abcdef0123456789abcdef0123456789abcde\nok") = none :=
  ⟨(pubkey_validation ("get public.key\n-> > " ++
      "0123456789abcdef0123456789abcdef0123456789abcdef0123456789abcdef\nok")).1
      "0123456789ABCDEF0123456789ABCDEF0123456789ABCDEF0123456789ABCDEF" (by decide),
   (pubkey_validation ("get public.key\n-> > " ++
      "0123456789abcdef0123456789abcdef0123456789abcdef0123456789abcde\nok")).2
      (" 0123456789abcdef0123456789abcdef0123456789abcdef0123456789abcde\nok").data
      (by decide) (by decide)⟩

/-! ## Claim theorems: stats tick -/

/-- C8: on the program's reachable states — startup sets the two
slots together and every tick end re-establishes `device_prev =
device`, so the invariant holds at every tick — the previous-sample
slot receives a new value only when a sample was obtained this same
tick (and then exactly that sample); when the device query yields
nothing this tick, the previous-sample slot is left unchanged (the
end-of-tick copy, when it executes, rewrites it with an equal value).
The first conjunct shows startup establishing the invariant, the
second shows the tick preserving it. -/
theorem stats_tick_prev_unchanged (device device_prev query : DeviceStats)
    (hinv : device_prev = device) :
    (∀ q0, (stats_startup q0).2 = (stats_startup q0).1) ∧
    ((stats_tick device device_prev query).2 = (stats_tick device device_prev query).1) ∧
    (query = [] → (stats_tick device device_prev query).2 = device_prev) ∧
    (query ≠ [] → (stats_tick device device_prev query).1 = query ∧
       (stats_tick device device_prev query).2 = query) := by
  subst hinv
  refine ⟨?_, ?_, ?_, ?_⟩
  · intro q0
    cases q0 with
    | nil => rfl
    | cons a t => simp [stats_startup]
  · cases query with
    | nil =>
      cases device_prev with
      | nil => rfl
      | cons a t => simp [stats_tick]
    | cons a t => simp [stats_tick]
  · intro hq
    subst hq
    cases device_prev with
    | nil => rfl
    | cons a t => simp [stats_tick]
  · intro hq
    cases query with
    | nil => exact absurd rfl hq
    | cons a t => simp [stats_tick]

/-- C8 witness: from the reachable state `device_prev = device`, an
empty query leaves the previous slot unchanged and a fresh sample is
copied into it. -/
theorem stats_tick_prev_unchanged_witness :
    (stats_tick [("battery_mv", (1 : Int))] [("battery_mv", 1)] []).2 =
      [("battery_mv", 1)] ∧
    (stats_tick [("battery_mv", (1 : Int))] [("battery_mv", 1)] [("battery_mv", 2)]).2 =
      [("battery_mv", 2)] :=
  ⟨(stats_tick_prev_unchanged [("battery_mv", (1 : Int))] [("battery_mv", 1)] []
      rfl).2.2.1 rfl,
   ((stats_tick_prev_unchanged [("battery_mv", (1 : Int))] [("battery_mv", 1)]
      [("battery_mv", 2)] rfl).2.2.2 (by decide)).2⟩

/-! ## Claim theorems: connect/disconnect callbacks -/

theorem setConnected_true_any (bn : Nat) (l : List SlotC)
    (h : l.any (fun s => s.broker_num == bn) = true) :
    (setConnected bn true l).any (fun s => s.connected) = true := by
  induction l with
  | nil => simp at h
  | cons s t ih =>
    by_cases hb : (s.broker_num == bn) = true
    · simp [setConnected, hb]
    · rw [Bool.not_eq_true] at hb
      simp only [List.any_cons, hb, Bool.false_or] at h
      simp [setConnected, hb, ih h]

theorem setConnected_true_marks (bn : Nat) (l : List SlotC)
    (h : l.any (fun s => s.broker_num == bn) = true) :
    (setConnected bn true l).any (fun s => s.broker_num == bn && s.connected) = true := by
  induction l with
  | nil => simp at h
  | cons s t ih =>
    by_cases hb : (s.broker_num == bn) = true
    · simp [setConnected, hb]
    · rw [Bool.not_eq_true] at hb
      simp only [List.any_cons, hb, Bool.false_or] at h
      simp [setConnected, hb, ih h]

theorem setConnected_false_any (bn : Nat) (l : List SlotC)
    (h : (setConnected bn false l).any (fun s => s.connected) = true) :
    l.any (fun s => s.connected) = true := by
  induction l with
  | nil => simp [setConnected] at h
  | cons s t ih =>
    by_cases hb : (s.broker_num == bn) = true
    · simp only [setConnected, hb, if_true, List.any_cons, Bool.false_or] at h
      simp [h]
    · rw [Bool.not_eq_true] at hb
      simp only [setConnected, hb, Bool.false_eq_true, if_false, List.any_cons] at h
      rcases Bool.or_eq_true_iff.mp h with hc | hc
      · simp [hc]
      · simp [ih hc]

theorem all_not_eq_not_any (l : List SlotC) :
    l.all (fun s => !s.connected) = !(l.any (fun s => s.connected)) := by
  induction l with
  | nil => rfl
  | cons s t ih => simp [ih, Bool.not_or]

/-- C9: assuming the flag invariant before the callback, both
callbacks re-establish "global flag = some slot is connected"; a
successful connect acknowledgement for a known broker sets the flag
and marks that slot connected; and after a disconnect notification the
flag is cleared exactly when every slot is disconnected. -/
theorem connected_flag_invariant (st : ConnState) (bn rc : Nat)
    (hinv : st.mqtt_connected = st.slots.any (fun s => s.connected)) :
    ((on_mqtt_connect st bn rc).mqtt_connected =
       (on_mqtt_connect st bn rc).slots.any (fun s => s.connected)) ∧
    ((on_mqtt_disconnect st bn).mqtt_connected =
       (on_mqtt_disconnect st bn).slots.any (fun s => s.connected)) ∧
    (rc = 0 → st.slots.any (fun s => s.broker_num == bn) = true →
       (on_mqtt_connect st bn rc).mqtt_connected = true ∧
       (on_mqtt_connect st bn rc).slots.any
         (fun s => s.broker_num == bn && s.connected) = true) ∧
    ((on_mqtt_disconnect st bn).mqtt_connected = false ↔
       (on_mqtt_disconnect st bn).slots.all (fun s => !s.connected) = true) := by
  have hdisc :
      ((on_mqtt_disconnect st bn).mqtt_connected =
        (on_mqtt_disconnect st bn).slots.any (fun s => s.connected)) ∧
      ((on_mqtt_disconnect st bn).mqtt_connected = false ↔
        (on_mqtt_disconnect st bn).slots.all (fun s => !s.connected) = true) := by
    by_cases hf : st.slots.any (fun s => s.broker_num == bn) = true
    · by_cases hall : (setConnected bn false st.slots).all (fun s => !s.connected) = true
      · have hany : (setConnected bn false st.slots).any (fun s => s.connected) = false := by
          rw [all_not_eq_not_any] at hall
          cases hx : (setConnected bn false st.slots).any (fun s => s.connected)
          · rfl
          · rw [hx] at hall; exact absurd hall (by decide)
        simp [on_mqtt_disconnect, hf, hall, hany]
      · have hany : (setConnected bn false st.slots).any (fun s => s.connected) = true := by
          rw [all_not_eq_not_any] at hall
          cases hx : (setConnected bn false st.slots).any (fun s => s.connected)
          · rw [hx] at hall; exact absurd rfl hall
          · rfl
        have hflag : st.mqtt_connected = true := by
          rw [hinv]; exact setConnected_false_any bn st.slots hany
        simp [on_mqtt_disconnect, hf, hall, hany, hflag, all_not_eq_not_any]
    · rw [Bool.not_eq_true] at hf
      cases hany : st.slots.any (fun s => s.connected) with
      | false =>
        have hflag : st.mqtt_connected = false := by rw [hinv, hany]
        simp [on_mqtt_disconnect, hf, hflag, hany, all_not_eq_not_any]
      | true =>
        have hflag : st.mqtt_connected = true := by rw [hinv, hany]
        simp [on_mqtt_disconnect, hf, hflag, hany, all_not_eq_not_any]
  refine ⟨?_, hdisc.1, ?_, hdisc.2⟩
  · by_cases hrc : (rc == 0) = true
    · by_cases hf : st.slots.any (fun s => s.broker_num == bn) = true
      · simp [on_mqtt_connect, hrc, hf, setConnected_true_any bn st.slots hf]
      · rw [Bool.not_eq_true] at hf
        simp [on_mqtt_connect, hrc, hf, hinv]
    · rw [Bool.not_eq_true] at hrc
      simp [on_mqtt_connect, hrc, hinv]
  · intro hrc hf
    subst hrc
    simp [on_mqtt_connect, hf, setConnected_true_marks bn st.slots hf]

/-- C9 witness: two slots with one connected (flag up, invariant
holds); connecting broker 1 keeps the invariant and marks it; then
from a state with only broker 2 connected, disconnecting broker 2
clears the flag exactly because every slot is now disconnected. -/
theorem connected_flag_invariant_witness :
    ((on_mqtt_connect ⟨[⟨1, false⟩, ⟨2, true⟩], true⟩ 1 0).mqtt_connected =
       (on_mqtt_connect ⟨[⟨1, false⟩, ⟨2, true⟩], true⟩ 1 0).slots.any
         (fun s => s.connected)) ∧
    ((on_mqtt_connect ⟨[⟨1, false⟩, ⟨2, true⟩], true⟩ 1 0).mqtt_connected = true ∧
       (on_mqtt_connect ⟨[⟨1, false⟩, ⟨2, true⟩], true⟩ 1 0).slots.any
         (fun s => s.broker_num == 1 && s.connected) = true) ∧
    ((on_mqtt_disconnect ⟨[⟨1, false⟩, ⟨2, true⟩], true⟩ 2).mqtt_connected = false ↔
       (on_mqtt_disconnect ⟨[⟨1, false⟩, ⟨2, true⟩], true⟩ 2).slots.all
         (fun s => !s.connected) = true) :=
  ⟨(connected_flag_invariant ⟨[⟨1, false⟩, ⟨2, true⟩], true⟩ 1 0 (by decide)).1,
   (connected_flag_invariant ⟨[⟨1, false⟩, ⟨2, true⟩], true⟩ 1 0 (by decide)).2.2.1
     rfl (by decide),
   (connected_flag_invariant ⟨[⟨1, false⟩, ⟨2, true⟩], true⟩ 2 0 (by decide)).2.2.2⟩

/-! ## Claim theorems: `create_auth_token` -/

/-- C10: `create_auth_token` returns a token only on a zero-exit tool
run, and then the token is the stripped tool output, non-empty, with
exactly two dots; a non-zero exit status, empty or malformed output,
a timeout, or a missing tool all raise. -/
theorem create_auth_token_total (o : ToolOutcome) :
    (∀ t, create_auth_token o = .ok t →
      ∃ rc out err, o = .completed rc out err ∧ rc = 0 ∧
        t = (trimList out.data).asString ∧ t ≠ "" ∧ countDots t = 2) ∧
    (o = .timedOut → ∃ m, create_auth_token o = .error m) ∧
    (o = .notFound → ∃ m, create_auth_token o = .error m) ∧
    (∀ rc out err, o = .completed rc out err → rc ≠ 0 →
      ∃ m, create_auth_token o = .error m) ∧
    (∀ out err, o = .completed 0 out err →
      ((trimList out.data).asString = "" ∨ countDots (trimList out.data).asString ≠ 2) →
      ∃ m, create_auth_token o = .error m) := by
  refine ⟨?_, ?_, ?_, ?_, ?_⟩
  · intro t ht
    cases o with
    | timedOut => simp [create_auth_token] at ht
    | notFound => simp [create_auth_token] at ht
    | completed rc out err =>
      by_cases hrc : rc = 0
      · subst hrc
        simp only [create_auth_token, ne_eq, not_true_eq_false, reduceIte] at ht
        by_cases hbad : ((trimList out.data).asString = "" ∨
            countDots (trimList out.data).asString ≠ 2)
        · rw [if_pos hbad] at ht
          simp at ht
        · rw [if_neg hbad] at ht
          push_neg at hbad
          have hts : (trimList out.data).asString = t := by
            injection ht
          exact ⟨0, out, err, rfl, rfl, hts.symm, hts ▸ hbad.1, hts ▸ hbad.2⟩
      · simp [create_auth_token, hrc] at ht
  · intro h; subst h; exact ⟨_, rfl⟩
  · intro h; subst h; exact ⟨_, rfl⟩
  · intro rc out err h hrc
    subst h
    simp [create_auth_token, hrc]
  · intro out err h hbad
    subst h
    simp only [create_auth_token, ne_eq, not_true_eq_false, reduceIte]
    rw [if_pos hbad]
    exact ⟨_, rfl⟩

/-- C10 witness: a zero-exit run whose stdout strips to a
three-segment token is accepted as exactly that stripped token. -/
theorem create_auth_token_total_witness :
    ∃ rc out err, ToolOutcome.completed 0 " hdr.pay.sig\n" "" = .completed rc out err ∧
      rc = 0 ∧ "hdr.pay.sig" = (trimList out.data).asString ∧
      "hdr.pay.sig" ≠ "" ∧ countDots "hdr.pay.sig" = 2 :=
  (create_auth_token_total (.completed 0 " hdr.pay.sig\n" "")).1 "hdr.pay.sig" (by rfl)
